import Mathlib

/-!
Verification development for the eccpem library (C sources: src/utils.c,
src/eccpem_read.c, src/eccpem_write.c). The C functions are shallowly
embedded: machine integers become Nat, byte buffers become List Nat,
NULL-able pointers become Option, and the outcomes of external calls
(fopen, OpenSSL parsing and conversion routines) are supplied by explicit
environment records. Each embedded function returns its int result
together with the final state of the caller buffer or file system, the
list of file/crypto operations it attempted, and the stderr messages it
printed (messages are the C literals, abbreviated to their first sentence
and with punctuation that the toolchain rejects removed).

The repository snapshot holds several revisions of eccpem_read.c and
eccpem_write.c; where revisions differ in behaviour both are embedded
(suffix v1 for the oldest revision, v2 for the next, v3 for the newest
OpenSSL-3 era revision of eccpem_read.c).
-/

namespace Eccpem

/-! ## Big-endian byte model of OpenSSL BIGNUM serialization

BN_bn2bin writes the minimal big-endian byte representation of a BIGNUM
(no leading zero bytes, zero bytes total for the value 0) and returns the
number of bytes written, which equals BN_num_bytes. BN_bn2binpad instead
writes exactly the requested width, padding with zero bytes on the left,
and fails when the value does not fit. -/

/-- Value of a big-endian byte list. -/
def beBytesToNat (bs : List Nat) : Nat :=
  bs.foldl (fun a b => a * 256 + b) 0

/-- Fuel-driven minimal big-endian byte representation; structural so that
concrete executions reduce by kernel evaluation. -/
def natToBEBytesAux : Nat → Nat → List Nat
  | 0, _ => []
  | fuel + 1, n =>
    if n = 0 then [] else natToBEBytesAux fuel (n / 256) ++ [n % 256]

/-- Minimal big-endian byte representation of a natural number, mirroring
BN_bn2bin output ([] for 0). -/
def natToBEBytes (n : Nat) : List Nat :=
  natToBEBytesAux n n

/-- BN_num_bytes, the return value of BN_bn2bin. -/
def BN_num_bytes (n : Nat) : Nat :=
  (natToBEBytes n).length

/-- Writing src over the front of dst, as BN_bn2bin and i2o_ECPublicKey do
when handed the start of a caller buffer. -/
def overwriteFront (src dst : List Nat) : List Nat :=
  src ++ dst.drop src.length

theorem beBytesToNat_concat (xs : List Nat) (b : Nat) :
    beBytesToNat (xs ++ [b]) = beBytesToNat xs * 256 + b := by
  simp [beBytesToNat, List.foldl_append]

theorem beBytesToNat_foldl_acc (ys : List Nat) :
    ∀ a : Nat, ys.foldl (fun a b => a * 256 + b) a
      = a * 256 ^ ys.length + beBytesToNat ys := by
  induction ys with
  | nil => intro a; simp [beBytesToNat]
  | cons y ys ih =>
    intro a
    have h1 := ih (a * 256 + y)
    have h2 := ih y
    simp only [List.foldl_cons, List.length_cons] at *
    have : beBytesToNat (y :: ys) = y * 256 ^ ys.length + beBytesToNat ys := by
      simpa [beBytesToNat] using h2
    rw [h1, this, pow_succ]
    ring

theorem beBytesToNat_append (xs ys : List Nat) :
    beBytesToNat (xs ++ ys) = beBytesToNat xs * 256 ^ ys.length + beBytesToNat ys := by
  simp only [beBytesToNat, List.foldl_append]
  exact beBytesToNat_foldl_acc ys _

theorem beBytesToNat_replicate_zero (k : Nat) :
    beBytesToNat (List.replicate k 0) = 0 := by
  induction k with
  | zero => rfl
  | succ k ih =>
    have : List.replicate (k + 1) 0 = 0 :: List.replicate k 0 := rfl
    simp only [beBytesToNat, this, List.foldl_cons] at *
    simpa using ih

theorem natToBEBytesAux_value (fuel : Nat) :
    ∀ n : Nat, n ≤ fuel → beBytesToNat (natToBEBytesAux fuel n) = n := by
  induction fuel with
  | zero =>
    intro n hn
    have h0 : n = 0 := Nat.le_zero.mp hn
    subst h0
    rfl
  | succ fuel ih =>
    intro n hn
    by_cases h0 : n = 0
    · subst h0; simp [natToBEBytesAux, beBytesToNat]
    · have hdiv : n / 256 ≤ fuel := by
        have : n / 256 < n := Nat.div_lt_self (Nat.pos_of_ne_zero h0) (by omega)
        omega
      simp only [natToBEBytesAux, if_neg h0]
      rw [beBytesToNat_concat, ih _ hdiv]
      have := Nat.div_add_mod n 256
      omega

/-- Round-trip: the big-endian value of the minimal representation is the
original number. -/
theorem beBytesToNat_natToBEBytes (n : Nat) :
    beBytesToNat (natToBEBytes n) = n :=
  natToBEBytesAux_value n n (Nat.le_refl n)

theorem natToBEBytesAux_length (fuel : Nat) :
    ∀ n k : Nat, n ≤ fuel → n < 256 ^ k → (natToBEBytesAux fuel n).length ≤ k := by
  induction fuel with
  | zero =>
    intro n k _ _
    simp [natToBEBytesAux]
  | succ fuel ih =>
    intro n k hn hk
    by_cases h0 : n = 0
    · subst h0; simp [natToBEBytesAux]
    · cases k with
      | zero => simp at hk; omega
      | succ k =>
        have hdiv : n / 256 ≤ fuel := by
          have : n / 256 < n := Nat.div_lt_self (Nat.pos_of_ne_zero h0) (by omega)
          omega
        have hklt : n / 256 < 256 ^ k := by
          have h256 : 0 < 256 := by omega
          rw [Nat.div_lt_iff_lt_mul h256]
          calc n < 256 ^ (k + 1) := hk
            _ = 256 ^ k * 256 := by rw [pow_succ]
        simp only [natToBEBytesAux, if_neg h0, List.length_append,
          List.length_singleton]
        have := ih (n / 256) k hdiv hklt
        omega

/-- BN_num_bytes of a value below 256 ^ k is at most k. -/
theorem BN_num_bytes_le (n k : Nat) (h : n < 256 ^ k) : BN_num_bytes n ≤ k :=
  natToBEBytesAux_length n n k (Nat.le_refl n) h

theorem drop_replicate (k m : Nat) :
    (List.replicate m (0 : Nat)).drop k = List.replicate (m - k) 0 := by
  induction k generalizing m with
  | zero => simp
  | succ k ih =>
    cases m with
    | zero => simp
    | succ m =>
      have : List.replicate (m + 1) (0 : Nat) = 0 :: List.replicate m 0 := rfl
      rw [this, List.drop_succ_cons, ih, Nat.succ_sub_succ]

/-- Writing the minimal bytes of d over a zeroed buffer of width w yields
the bytes of d followed by zero padding on the right. -/
theorem overwriteFront_zeroes (d w : Nat) :
    overwriteFront (natToBEBytes d) (List.replicate w 0)
      = natToBEBytes d ++ List.replicate (w - BN_num_bytes d) 0 := by
  simp [overwriteFront, drop_replicate, BN_num_bytes]

theorem overwriteFront_zeroes_length (d w : Nat) (h : BN_num_bytes d ≤ w) :
    (overwriteFront (natToBEBytes d) (List.replicate w 0)).length = w := by
  rw [overwriteFront_zeroes]
  simp only [List.length_append, List.length_replicate]
  simp only [BN_num_bytes] at h ⊢
  omega

/-- A right-padded nonzero scalar never gives the all-zero buffer. -/
theorem right_padded_ne_zero_buffer (d w : Nat) (hd : d ≠ 0) :
    natToBEBytes d ++ List.replicate (w - BN_num_bytes d) 0
      ≠ List.replicate w 0 := by
  intro heq
  have hval := congrArg beBytesToNat heq
  rw [beBytesToNat_append, beBytesToNat_natToBEBytes,
    beBytesToNat_replicate_zero, beBytesToNat_replicate_zero] at hval
  simp only [List.length_replicate, Nat.add_zero] at hval
  rcases Nat.mul_eq_zero.mp hval with h | h
  · exact hd h
  · have hp : 0 < 256 ^ (w - BN_num_bytes d) := pow_pos (by omega) _
    omega

/-! ## utils.c: VerifyPemFileFormat

The C function takes a possibly NULL path, finds the last occurrence of
the dot character with strrchr, and accepts exactly when the suffix
starting at that dot compares equal to ".pem" (strcmp). It never touches
the file system: the embedding below is a pure function of the path
string, as the C source is. -/

/-- The suffix of the character list starting at its last dot, mirroring
strrchr(pem_file, 46); none when no dot occurs. -/
def lastDotSuffix : List Char → Option (List Char)
  | [] => none
  | c :: cs =>
    match lastDotSuffix cs with
    | some r => some r
    | none => if c = '.' then some (c :: cs) else none

/-- Embedding of VerifyPemFileFormat (src/utils.c, lines 31-51): 0 for a
NULL path, 0 when the path has no dot, 0 when the suffix at the last dot
differs from ".pem", else 1. -/
def VerifyPemFileFormat : Option String → Nat
  | none => 0
  | some s =>
    match lastDotSuffix s.data with
    | none => 0
    | some suffixChars => if suffixChars = (".pem" : String).data then 1 else 0

theorem lastDotSuffix_pem (cs : List Char) :
    lastDotSuffix cs = some (".pem" : String).data ↔ (".pem" : String).data <:+ cs := by
  induction cs with
  | nil =>
    constructor
    · intro h; simp [lastDotSuffix] at h
    · intro h
      obtain ⟨t, ht⟩ := h
      have := congrArg List.length ht
      simp at this
  | cons c rest ih =>
    constructor
    · intro h
      simp only [lastDotSuffix] at h
      cases hrec : lastDotSuffix rest with
      | some r =>
        rw [hrec] at h
        have hr : r = (".pem" : String).data := by simpa using h
        subst hr
        exact (ih.mp hrec).trans ⟨[c], rfl⟩
      | none =>
        rw [hrec] at h
        by_cases hc : c = '.'
        · rw [if_pos hc] at h
          have heq : c :: rest = (".pem" : String).data := by simpa using h
          rw [heq]
        · rw [if_neg hc] at h
          exact absurd h (by simp)
    · intro h
      obtain ⟨t, ht⟩ := h
      cases t with
      | nil =>
        simp only [List.nil_append] at ht
        rw [← ht]
        decide
      | cons a t =>
        rw [List.cons_append] at ht
        injection ht with h1 h2
        have hrec := ih.mpr ⟨t, h2⟩
        simp only [lastDotSuffix, hrec]

/-! ## Observable effects

Every embedded function records the file-system and cryptographic
operations it attempts (in order) and the stderr messages it prints. -/

/-- A file-system or OpenSSL operation attempted by the code. -/
inductive Event where
  | openRead : String → Event
  | openWrite : String → Event
  | cryptoOp : String → Event
deriving DecidableEq

/-- Abstract content of a path on disk. A destination opened with mode w is
truncated to empty before anything is written; a completed PEM write makes
it a complete key file. -/
inductive FileState where
  | absent
  | priorData
  | truncatedEmpty
  | completeKey
deriving DecidableEq

/-- The file system, as a map from paths to their state. -/
def FS : Type := String → FileState

/-- Point update of the file system. -/
def setFile (fs : FS) (p : String) (st : FileState) : FS :=
  fun q => if q = p then st else fs q

/-! ## eccpem_read.c

The snapshot holds three revisions of this file. They agree on argument
validation and on the open/parse/extract sequence and differ in how the
private scalar reaches the caller buffer:
 - v1 (lines 39-117): bzero then BN_bn2bin at the start of the buffer;
   when BN_bn2bin returns 0 the error is printed but the function still
   falls through to return 1;
 - v2 (lines 252-329): memset, a size check, then BN_bn2bin at the start
   of the buffer, returning 0 on every failure;
 - v3 (newest revision, OpenSSL 3 era): BN_bn2binpad, which writes the
   scalar left-padded with zeros to exactly key_size bytes.
The two revisions of ReadPublicKeyPemFile in eccpem_read.c (lines 136-212
and 351-413) are behaviourally identical and share one embedding. -/

/-- Result of a read call: the int return value, the caller buffer after
the call (none when the caller passed NULL), the operations attempted and
the stderr messages printed. -/
structure RResult where
  ret : Nat
  buf : Option (List Nat)
  events : List Event
  errs : List String
deriving DecidableEq

/-- Environment of ReadPrivateKeyPemFile v1: outcomes of fopen,
PEM_read_PrivateKey, EVP_PKEY_get1_EC_KEY and BN_new, and the value of the
BIGNUM copied out of EC_KEY_get0_private_key (v1 does not check it for
NULL; memcpy requires it to exist). -/
structure R1Env where
  fopenOk : Bool
  parseOk : Bool
  ecOk : Bool
  bnNewOk : Bool
  privVal : Nat

/-- Embedding of ReadPrivateKeyPemFile, first revision (src/eccpem_read.c
lines 39-117). BN_bn2bin writes the minimal big-endian bytes of the scalar
at the start of the zeroed buffer and returns their count; when that count
is 0 the revision prints the conversion error and still returns 1. -/
def ReadPrivateKeyPemFile_v1 (path : Option String) (buf : Option (List Nat))
    (keySize : Nat) (env : R1Env) : RResult :=
  if VerifyPemFileFormat path = 0 then ⟨0, buf, [], []⟩
  else match buf with
  | none => ⟨0, none, [], ["Private key array cannot be null."]⟩
  | some b0 =>
    if keySize = 0 then ⟨0, some b0, [], ["Private key array size cannot be null."]⟩
    else
      let ev0 := [Event.openRead (path.getD "")]
      if env.fopenOk = false then
        ⟨0, some b0, ev0, ["Unable to open private key pem file or it does not exist."]⟩
      else
        let ev1 := ev0 ++ [Event.cryptoOp "PEM_read_PrivateKey"]
        if env.parseOk = false then
          ⟨0, some b0, ev1, ["Failed to read PEM format private key."]⟩
        else
          let ev2 := ev1 ++ [Event.cryptoOp "EVP_PKEY_get1_EC_KEY"]
          if env.ecOk = false then
            ⟨0, some b0, ev2, ["Failed to convert EVP_PKEY to EC_KEY."]⟩
          else
            let ev3 := ev2 ++ [Event.cryptoOp "BN_new"]
            if env.bnNewOk = false then
              ⟨0, some b0, ev3, ["Failed to allocate and initialize a BIGNUM structure."]⟩
            else
              let bytes := natToBEBytes env.privVal
              let bufW := overwriteFront bytes (List.replicate keySize 0)
              let ev4 := ev3 ++ [Event.cryptoOp "BN_bn2bin"]
              if bytes.length = 0 then
                ⟨1, some bufW, ev4, ["Failed to convert bignum to binary."]⟩
              else
                ⟨1, some bufW, ev4, []⟩

/-- Environment of ReadPrivateKeyPemFile v2 and v3: outcomes of fopen,
PEM_read_PrivateKey and EVP_PKEY_get1_EC_KEY, and the result of
EC_KEY_get0_private_key (none models a NULL BIGNUM). -/
structure R2Env where
  fopenOk : Bool
  parseOk : Bool
  ecOk : Bool
  privBn : Option Nat

/-- Embedding of ReadPrivateKeyPemFile, second revision (src/eccpem_read.c
lines 252-329): memset the buffer to zero, fail when BN_num_bytes exceeds
key_size, else BN_bn2bin at the start of the buffer (its return value
always equals BN_num_bytes, so the final inequality check never fires). -/
def ReadPrivateKeyPemFile_v2 (path : Option String) (buf : Option (List Nat))
    (keySize : Nat) (env : R2Env) : RResult :=
  if VerifyPemFileFormat path = 0 then ⟨0, buf, [], []⟩
  else match buf with
  | none => ⟨0, none, [], ["Private key array cannot be null."]⟩
  | some b0 =>
    if keySize = 0 then ⟨0, some b0, [], ["Private key array size cannot be null."]⟩
    else
      let ev0 := [Event.openRead (path.getD "")]
      if env.fopenOk = false then
        ⟨0, some b0, ev0, ["Unable to open private key pem file or it does not exist."]⟩
      else
        let ev1 := ev0 ++ [Event.cryptoOp "PEM_read_PrivateKey"]
        if env.parseOk = false then
          ⟨0, some b0, ev1, ["Failed to read PEM format private key."]⟩
        else
          let ev2 := ev1 ++ [Event.cryptoOp "EVP_PKEY_get1_EC_KEY"]
          if env.ecOk = false then
            ⟨0, some b0, ev2, ["Failed to convert EVP_PKEY to EC_KEY."]⟩
          else
            match env.privBn with
            | none => ⟨0, some b0, ev2, ["Failed to get private key as BIGNUM."]⟩
            | some d =>
              let bufZ := List.replicate keySize 0
              if BN_num_bytes d > keySize then
                ⟨0, some bufZ, ev2, ["Private key size is larger than provided buffer."]⟩
              else
                let bufW := overwriteFront (natToBEBytes d) bufZ
                let ev3 := ev2 ++ [Event.cryptoOp "BN_bn2bin"]
                if (natToBEBytes d).length ≠ BN_num_bytes d then
                  ⟨0, some bufW, ev3, ["Failed to convert private key to binary."]⟩
                else
                  ⟨1, some bufW, ev3, []⟩

/-- Embedding of ReadPrivateKeyPemFile, newest revision (OpenSSL 3 era,
the unnamed eccpem_read.c in the snapshot): BN_bn2binpad writes the scalar
left-padded with zeros to exactly key_size bytes, failing when the scalar
needs more than key_size bytes; the buffer is not zeroed beforehand. -/
def ReadPrivateKeyPemFile_v3 (path : Option String) (buf : Option (List Nat))
    (keySize : Nat) (env : R2Env) : RResult :=
  if VerifyPemFileFormat path = 0 then ⟨0, buf, [], []⟩
  else match buf with
  | none => ⟨0, none, [], ["Private key array cannot be null."]⟩
  | some b0 =>
    if keySize = 0 then ⟨0, some b0, [], ["Private key array size cannot be null."]⟩
    else
      let ev0 := [Event.openRead (path.getD "")]
      if env.fopenOk = false then
        ⟨0, some b0, ev0, ["Unable to open private key pem file or it does not exist."]⟩
      else
        let ev1 := ev0 ++ [Event.cryptoOp "PEM_read_PrivateKey"]
        if env.parseOk = false then
          ⟨0, some b0, ev1, ["Failed to read private key from PEM file."]⟩
        else
          let ev2 := ev1 ++ [Event.cryptoOp "EVP_PKEY_get1_EC_KEY"]
          if env.ecOk = false then
            ⟨0, some b0, ev2, ["Failed to convert EVP_PKEY to EC_KEY."]⟩
          else
            match env.privBn with
            | none => ⟨0, some b0, ev2, ["Failed to get private key as BIGNUM."]⟩
            | some d =>
              let ev3 := ev2 ++ [Event.cryptoOp "BN_bn2binpad"]
              if BN_num_bytes d > keySize then
                ⟨0, some b0, ev3, ["Failed to convert private key to binary format."]⟩
              else
                ⟨1, some (List.replicate (keySize - BN_num_bytes d) 0 ++ natToBEBytes d), ev3, []⟩

/-- Environment of ReadPublicKeyPemFile: outcomes of fopen, PEM_read_PUBKEY
and EVP_PKEY_get1_EC_KEY, and the bytes produced by i2o_ECPublicKey in
compressed form (none models a conversion error, whose C return value 0
then fails the length comparison). -/
structure PubEnv where
  fopenOk : Bool
  parseOk : Bool
  ecOk : Bool
  converted : Option (List Nat)

/-- Embedding of ReadPublicKeyPemFile (src/eccpem_read.c lines 136-212 and
351-413, which are behaviourally identical): after validation and parsing,
i2o_ECPublicKey writes the compressed key through the caller buffer
pointer and returns its length, which is then compared with
compressed_key_size; the buffer is written before the comparison. -/
def ReadPublicKeyPemFile (path : Option String) (buf : Option (List Nat))
    (compressedKeySize : Nat) (env : PubEnv) : RResult :=
  if VerifyPemFileFormat path = 0 then ⟨0, buf, [], []⟩
  else match buf with
  | none => ⟨0, none, [], ["Public key array cannot be null."]⟩
  | some b0 =>
    if compressedKeySize = 0 then
      ⟨0, some b0, [], ["Public key array size cannot be null."]⟩
    else
      let ev0 := [Event.openRead (path.getD "")]
      if env.fopenOk = false then
        ⟨0, some b0, ev0, ["Unable to open public key pem file or it does not exist."]⟩
      else
        let ev1 := ev0 ++ [Event.cryptoOp "PEM_read_PUBKEY"]
        if env.parseOk = false then
          ⟨0, some b0, ev1, ["Failed to read PEM format public key."]⟩
        else
          let ev2 := ev1 ++ [Event.cryptoOp "EVP_PKEY_get1_EC_KEY"]
          if env.ecOk = false then
            ⟨0, some b0, ev2, ["Failed to convert EVP_PKEY to EC_KEY."]⟩
          else
            let ev3 := ev2 ++ [Event.cryptoOp "EC_KEY_set_conv_form",
                               Event.cryptoOp "i2o_ECPublicKey"]
            match env.converted with
            | none => ⟨0, some b0, ev3, ["Failed to read compressed EC public key."]⟩
            | some ks =>
              let bufW := overwriteFront ks b0
              if ks.length ≠ compressedKeySize then
                ⟨0, some bufW, ev3, ["Failed to read compressed EC public key."]⟩
              else
                ⟨1, some bufW, ev3, []⟩

/-! ## eccpem_write.c

Two revisions are in the snapshot. Both write the private key first and
the public key second, each by opening the destination path directly with
mode w (which truncates an existing file) and then writing through one
PEM call; on any failure they close the handle and return 0 without
removing the destination file and without any temp-file-and-rename step.
v1 (lines 118-149) uses FILE handles, v2 (lines 308-355) uses BIOs and can
additionally fail while allocating the initial BIO, before any open. -/

/-- Result of a write-path call: the int return value, the file system
after the call, the operations attempted and the stderr messages. -/
structure WResult where
  ret : Nat
  fs : FS
  events : List Event
  errs : List String

/-- Environment of WriteKeysToPEMFiles: outcome of the initial BIO
allocation (v2 only; v1 has no such step, take it true there), of the two
opens and of the two PEM write calls. -/
structure WEnv where
  bioNewOk : Bool
  privOpenOk : Bool
  privWriteOk : Bool
  pubOpenOk : Bool
  pubWriteOk : Bool

/-- Embedding of WriteKeysToPEMFiles, first revision (src/eccpem_write.c
lines 118-149): fopen(privkey_file, w), PEM_write_PrivateKey,
fopen(pubkey_file, w), PEM_write_PUBKEY; every failure path closes the
handle and returns 0, leaving the truncated destination in place. -/
def WriteKeysToPEMFiles_v1 (fs : FS) (pubFile privFile : String)
    (env : WEnv) : WResult :=
  if env.privOpenOk = false then
    ⟨0, fs, [Event.openWrite privFile], ["Unable to open private key file for writing."]⟩
  else
    let fs1 := setFile fs privFile FileState.truncatedEmpty
    if env.privWriteOk = false then
      ⟨0, fs1, [Event.openWrite privFile], ["Error writing private key data in PEM format."]⟩
    else
      let fs2 := setFile fs1 privFile FileState.completeKey
      if env.pubOpenOk = false then
        ⟨0, fs2, [Event.openWrite privFile, Event.openWrite pubFile],
          ["Unable to open public key file for writing."]⟩
      else
        let fs3 := setFile fs2 pubFile FileState.truncatedEmpty
        if env.pubWriteOk = false then
          ⟨0, fs3, [Event.openWrite privFile, Event.openWrite pubFile],
            ["Error writing public key data in PEM format."]⟩
        else
          ⟨1, setFile fs3 pubFile FileState.completeKey,
            [Event.openWrite privFile, Event.openWrite pubFile], []⟩

/-- Embedding of WriteKeysToPEMFiles, second revision (src/eccpem_write.c
lines 308-355): identical shape through BIOs, with one extra failure point
at BIO_new before anything is opened. -/
def WriteKeysToPEMFiles_v2 (fs : FS) (pubFile privFile : String)
    (env : WEnv) : WResult :=
  if env.bioNewOk = false then
    ⟨0, fs, [Event.cryptoOp "BIO_new"], ["Creating a new OpenSSL BIO failed."]⟩
  else
    let evb := [Event.cryptoOp "BIO_new"]
    if env.privOpenOk = false then
      ⟨0, fs, evb ++ [Event.openWrite privFile],
        ["Unable to create a new PEM file BIO with writing mode."]⟩
    else
      let fs1 := setFile fs privFile FileState.truncatedEmpty
      if env.privWriteOk = false then
        ⟨0, fs1, evb ++ [Event.openWrite privFile],
          ["Error writing private key data in PEM format."]⟩
      else
        let fs2 := setFile fs1 privFile FileState.completeKey
        if env.pubOpenOk = false then
          ⟨0, fs2, evb ++ [Event.openWrite privFile, Event.openWrite pubFile],
            ["Unable to create a new PEM file BIO with writing mode."]⟩
        else
          let fs3 := setFile fs2 pubFile FileState.truncatedEmpty
          if env.pubWriteOk = false then
            ⟨0, fs3, evb ++ [Event.openWrite privFile, Event.openWrite pubFile],
              ["Error writing public key data in PEM format."]⟩
          else
            ⟨1, setFile fs3 pubFile FileState.completeKey,
              evb ++ [Event.openWrite privFile, Event.openWrite pubFile], []⟩

/-- Environment of CreateECCKeysPemFiles v1 (src/eccpem_write.c lines
43-100): outcomes of EVP_PKEY_CTX_new_id, EVP_PKEY_keygen_init, of setting
the curve (EVP_PKEY_CTX_set_ec_paramgen_curve_nid on OBJ_txt2nid of the
name, which fails when the name resolves to no known curve), of
EVP_PKEY_keygen, and of the write path. -/
structure GEnv1 where
  ctxNewOk : Bool
  keygenInitOk : Bool
  curveKnown : Bool
  keygenOk : Bool
  wenv : WEnv

/-- Embedding of CreateECCKeysPemFiles, first revision (src/eccpem_write.c
lines 43-100). -/
def CreateECCKeysPemFiles_v1 (ecType pubFile privFile : Option String)
    (env : GEnv1) (fs : FS) : WResult :=
  match ecType with
  | none => ⟨0, fs, [], ["Elliptic Curve type cannot be NULL."]⟩
  | some _ =>
    if VerifyPemFileFormat pubFile = 0 then ⟨0, fs, [], []⟩
    else if VerifyPemFileFormat privFile = 0 then ⟨0, fs, [], []⟩
    else
      let ev0 := [Event.cryptoOp "EVP_PKEY_CTX_new_id"]
      if env.ctxNewOk = false then
        ⟨0, fs, ev0, ["Creating EVP_PKEY_CTX failed."]⟩
      else
        let ev1 := ev0 ++ [Event.cryptoOp "EVP_PKEY_keygen_init"]
        if env.keygenInitOk = false then
          ⟨0, fs, ev1, ["Initializing key generation failed."]⟩
        else
          let ev2 := ev1 ++ [Event.cryptoOp "EVP_PKEY_CTX_set_ec_paramgen_curve_nid"]
          if env.curveKnown = false then
            ⟨0, fs, ev2, ["Setting EC curve parameters failed."]⟩
          else
            let ev3 := ev2 ++ [Event.cryptoOp "EVP_PKEY_keygen"]
            if env.keygenOk = false then
              ⟨0, fs, ev3, ["Generating EC key pair failed."]⟩
            else
              let w := WriteKeysToPEMFiles_v1 fs (pubFile.getD "") (privFile.getD "") env.wenv
              if w.ret = 0 then
                ⟨0, w.fs, ev3 ++ w.events,
                  w.errs ++ ["Writing private and public keys in PEM format files failed."]⟩
              else
                ⟨1, w.fs, ev3 ++ w.events, w.errs⟩

/-- Environment of CreateECCKeysPemFiles v2 (src/eccpem_write.c lines
195-290): whether OBJ_txt2nid plus EC_KEY_new_by_curve_name resolve the
curve name, and the outcomes of EC_KEY_generate_key, EVP_PKEY_new,
EVP_PKEY_assign_EC_KEY, EVP_PKEY_get1_EC_KEY and the write path. -/
structure GEnv2 where
  curveKnown : Bool
  genOk : Bool
  pkeyNewOk : Bool
  assignOk : Bool
  get1Ok : Bool
  wenv : WEnv

/-- Embedding of CreateECCKeysPemFiles, second revision (src/eccpem_write.c
lines 195-290). -/
def CreateECCKeysPemFiles_v2 (ecType pubFile privFile : Option String)
    (env : GEnv2) (fs : FS) : WResult :=
  match ecType with
  | none => ⟨0, fs, [], ["Elliptic Curve type cannot be NULL."]⟩
  | some _ =>
    if VerifyPemFileFormat pubFile = 0 then ⟨0, fs, [], []⟩
    else if VerifyPemFileFormat privFile = 0 then ⟨0, fs, [], []⟩
    else
      let ev0 := [Event.cryptoOp "OpenSSL_add_all_algorithms",
                  Event.cryptoOp "OBJ_txt2nid",
                  Event.cryptoOp "EC_KEY_new_by_curve_name"]
      if env.curveKnown = false then
        ⟨0, fs, ev0, ["Creating a new OpenSSL EC_KEY object failed."]⟩
      else
        let ev1 := ev0 ++ [Event.cryptoOp "EC_KEY_set_asn1_flag",
                           Event.cryptoOp "EC_KEY_generate_key"]
        if env.genOk = false then
          ⟨0, fs, ev1, ["Generating a new EC public and private key failed."]⟩
        else
          let ev2 := ev1 ++ [Event.cryptoOp "EVP_PKEY_new"]
          if env.pkeyNewOk = false then
            ⟨0, fs, ev2, ["Generating the newly allocated EVP_PKEY failed."]⟩
          else
            let ev3 := ev2 ++ [Event.cryptoOp "EVP_PKEY_assign_EC_KEY"]
            if env.assignOk = false then
              ⟨0, fs, ev3, ["Error assigning EC_KEY key to EVP_PKEY structure."]⟩
            else
              let ev4 := ev3 ++ [Event.cryptoOp "EVP_PKEY_get1_EC_KEY"]
              if env.get1Ok = false then
                ⟨0, fs, ev4, ["Error getting referenced EVP_PKEY."]⟩
              else
                let w := WriteKeysToPEMFiles_v2 fs (pubFile.getD "") (privFile.getD "") env.wenv
                if w.ret = 0 then
                  ⟨0, w.fs, ev4 ++ w.events,
                    w.errs ++ ["Writing private and public keys in PEM format files failed."]⟩
                else
                  ⟨1, w.fs, ev4 ++ w.events, w.errs⟩

/-! ## SEC1 point compression (external collaborator) -/

/-- Modelled from the spec: SEC1 compressed point serialization, the
output format of i2o_ECPublicKey and EC_POINT_point2oct under
POINT_CONVERSION_COMPRESSED. This operation is performed inside OpenSSL
and has no implementation in this repository; the spec (sections 3 and
4.2) defines it as a prefix byte 2 when y is even and 3 when y is odd,
followed by x as w big-endian bytes left-padded with zeros. -/
def EncodePoint (w x y : Nat) : List Nat :=
  (if y % 2 = 0 then 2 else 3)
    :: (List.replicate (w - BN_num_bytes x) 0 ++ natToBEBytes x)

theorem EncodePoint_length (w x y : Nat) (hx : x < 256 ^ w) :
    (EncodePoint w x y).length = w + 1 := by
  have := BN_num_bytes_le x w hx
  simp only [EncodePoint, List.length_cons, List.length_append, List.length_replicate]
  simp only [BN_num_bytes] at *
  omega

/-! ## Helper lemmas: the successful executions in closed form -/

/-- The successful run of the second revision of ReadPrivateKeyPemFile on
a scalar that fits the buffer: it returns 1 with the scalar bytes at the
start of the buffer and the zero padding on the right. -/
theorem readPriv_v2_success (path : Option String) (n d : Nat)
    (hv : VerifyPemFileFormat path ≠ 0) (hn : n ≠ 0) (hfit : BN_num_bytes d ≤ n) :
    ReadPrivateKeyPemFile_v2 path (some (List.replicate n 0)) n ⟨true, true, true, some d⟩
      = ⟨1, some (natToBEBytes d ++ List.replicate (n - BN_num_bytes d) 0),
          [Event.openRead (path.getD ""), Event.cryptoOp "PEM_read_PrivateKey",
           Event.cryptoOp "EVP_PKEY_get1_EC_KEY", Event.cryptoOp "BN_bn2bin"], []⟩ := by
  have hnotgt : ¬ BN_num_bytes d > n := Nat.not_lt.mpr hfit
  simp [ReadPrivateKeyPemFile_v2, hv, hn, hnotgt, BN_num_bytes, overwriteFront_zeroes]
  simp only [BN_num_bytes] at hfit
  exact hfit

/-- The successful run of the newest revision of ReadPrivateKeyPemFile:
BN_bn2binpad left-pads the scalar with zeros to exactly key_size bytes. -/
theorem readPriv_v3_left_pads (path : Option String) (b0 : List Nat) (n d : Nat)
    (hv : VerifyPemFileFormat path ≠ 0) (hn : n ≠ 0) (hfit : BN_num_bytes d ≤ n) :
    (ReadPrivateKeyPemFile_v3 path (some b0) n ⟨true, true, true, some d⟩).buf
      = some (List.replicate (n - BN_num_bytes d) 0 ++ natToBEBytes d) := by
  have hnotgt : ¬ BN_num_bytes d > n := Nat.not_lt.mpr hfit
  simp [ReadPrivateKeyPemFile_v3, hv, hn, hnotgt]

/-- The successful run of ReadPublicKeyPemFile when the converted
compressed key has exactly the requested length. -/
theorem readPub_success (path : Option String) (b0 ks : List Nat) (size : Nat)
    (hv : VerifyPemFileFormat path ≠ 0) (hs : size ≠ 0) (hlen : ks.length = size) :
    ReadPublicKeyPemFile path (some b0) size ⟨true, true, true, some ks⟩
      = ⟨1, some (overwriteFront ks b0),
          [Event.openRead (path.getD ""), Event.cryptoOp "PEM_read_PUBKEY",
           Event.cryptoOp "EVP_PKEY_get1_EC_KEY", Event.cryptoOp "EC_KEY_set_conv_form",
           Event.cryptoOp "i2o_ECPublicKey"], []⟩ := by
  simp [ReadPublicKeyPemFile, hv, hs, hlen]

/-! ## The claims -/

/-- C1: the claim says a successful ReadPrivateKeyPemFile call serializes
the scalar as key_size big-endian bytes zero-padded on the LEFT (value in
the rightmost bytes). Both cited revisions instead write the minimal bytes
of the scalar at the START of the zeroed buffer (BN_bn2bin at the buffer
base), so a scalar whose minimal form is shorter than key_size ends up in
the leftmost bytes with the zero padding on the right. Evaluated here at
scalar 5 with key_size 32: both revisions return 1 with buffer
05 00 ... 00, which differs from the left-padded form 00 ... 00 05. -/
theorem C1_read_private_right_pads_not_left :
    (ReadPrivateKeyPemFile_v2 (some "priv.pem") (some (List.replicate 32 0)) 32
        ⟨true, true, true, some 5⟩).ret = 1
  ∧ (ReadPrivateKeyPemFile_v2 (some "priv.pem") (some (List.replicate 32 0)) 32
        ⟨true, true, true, some 5⟩).buf = some (5 :: List.replicate 31 0)
  ∧ (ReadPrivateKeyPemFile_v1 (some "priv.pem") (some (List.replicate 32 0)) 32
        ⟨true, true, true, true, 5⟩).ret = 1
  ∧ (ReadPrivateKeyPemFile_v1 (some "priv.pem") (some (List.replicate 32 0)) 32
        ⟨true, true, true, true, 5⟩).buf = some (5 :: List.replicate 31 0)
  ∧ 5 :: List.replicate 31 0 ≠ List.replicate 31 (0 : Nat) ++ [5] := by
  refine ⟨?_, ?_, ?_, ?_, ?_⟩ <;> decide

/-- C3: the claim says ReadPrivateKeyPemFile returns 0 whenever the
BIGNUM-to-binary conversion fails. In the first cited revision the
BN_bn2bin failure branch (return value 0, here a zero scalar) prints the
conversion error and then falls through to return 1: the return 0 is
missing, contradicting the doc comment of that very revision. -/
theorem C3_v1_returns_one_after_failed_conversion :
    BN_num_bytes 0 = 0
  ∧ (ReadPrivateKeyPemFile_v1 (some "priv.pem") (some (List.replicate 32 0)) 32
        ⟨true, true, true, true, 0⟩).ret = 1
  ∧ "Failed to convert bignum to binary."
      ∈ (ReadPrivateKeyPemFile_v1 (some "priv.pem") (some (List.replicate 32 0)) 32
        ⟨true, true, true, true, 0⟩).errs := by
  refine ⟨?_, ?_, ?_⟩ <;> decide

/-- C4: the claim says reading back recovers exactly the scalar that was
written. Because both cited revisions place the minimal scalar bytes at
the start of the buffer (zero padding on the right), two distinct scalars
5 and 1280 = 0x0500 produce the SAME 32-byte buffer on a successful read,
so no decoding can recover the written scalar and the round-trip law
fails. -/
theorem C4_roundtrip_collision :
    (ReadPrivateKeyPemFile_v2 (some "priv.pem") (some (List.replicate 32 0)) 32
        ⟨true, true, true, some 5⟩).buf
      = (ReadPrivateKeyPemFile_v2 (some "priv.pem") (some (List.replicate 32 0)) 32
        ⟨true, true, true, some 1280⟩).buf
  ∧ (ReadPrivateKeyPemFile_v2 (some "priv.pem") (some (List.replicate 32 0)) 32
        ⟨true, true, true, some 5⟩).ret = 1
  ∧ (ReadPrivateKeyPemFile_v2 (some "priv.pem") (some (List.replicate 32 0)) 32
        ⟨true, true, true, some 1280⟩).ret = 1
  ∧ (5 : Nat) ≠ 1280 := by
  refine ⟨?_, ?_, ?_, ?_⟩ <;> decide

/-- C10: ReadPublicKeyPemFile is not atomic with respect to the caller
buffer: with a valid public key converting to 33 compressed bytes but a
compressed_key_size of 34, i2o_ECPublicKey writes the bytes through the
buffer pointer before the length comparison fails, so the function returns
0 with the buffer already overwritten. -/
theorem C10_public_read_overwrites_buffer_on_failure :
    (ReadPublicKeyPemFile (some "pub.pem") (some (List.replicate 34 0)) 34
        ⟨true, true, true, some (EncodePoint 32 1 1)⟩).ret = 0
  ∧ (ReadPublicKeyPemFile (some "pub.pem") (some (List.replicate 34 0)) 34
        ⟨true, true, true, some (EncodePoint 32 1 1)⟩).buf
      ≠ some (List.replicate 34 0)
  ∧ (EncodePoint 32 1 1).length = 33 := by
  refine ⟨?_, ?_, ?_⟩ <;> decide

/-- C2 counterexample: a failing execution of the write path that leaves a
truncated key file behind. An existing complete private-key file is
truncated by fopen(privkey_file, w); PEM_write then fails;
CreateECCKeysPemFiles returns 0 and the private-key path now holds a
truncated empty file — no temp-file rename and no cleanup happen. -/
theorem C2_cex_truncated_file_remains :
    ((fun p => if p = "priv.pem" then FileState.completeKey else FileState.absent) "priv.pem"
        = FileState.completeKey)
  ∧ (CreateECCKeysPemFiles_v2 (some "prime256v1") (some "pub.pem") (some "priv.pem")
        ⟨true, true, true, true, true, ⟨true, true, false, true, true⟩⟩
        (fun p => if p = "priv.pem" then FileState.completeKey else FileState.absent)).ret = 0
  ∧ ((CreateECCKeysPemFiles_v2 (some "prime256v1") (some "pub.pem") (some "priv.pem")
        ⟨true, true, true, true, true, ⟨true, true, false, true, true⟩⟩
        (fun p => if p = "priv.pem" then FileState.completeKey else FileState.absent)).fs
          "priv.pem" = FileState.truncatedEmpty) := by
  refine ⟨?_, ?_, ?_⟩ <;> decide

/-- C2 amended: if writing either key fails after its destination file has
been opened, WriteKeysToPEMFiles (both revisions) returns 0 and performs
neither an atomic temp-file replace nor any cleanup: the destination
opened last is left as a truncated empty file, and when the public-key
write is the failing step the fully written private-key file stays in
place. -/
theorem C2_amended_no_cleanup_on_write_failure (fs : FS) (pubFile privFile : String)
    (env : WEnv) (hne : pubFile ≠ privFile) :
    (env.bioNewOk = true → env.privOpenOk = true → env.privWriteOk = false →
        (WriteKeysToPEMFiles_v1 fs pubFile privFile env).ret = 0
      ∧ (WriteKeysToPEMFiles_v1 fs pubFile privFile env).fs privFile = FileState.truncatedEmpty
      ∧ (WriteKeysToPEMFiles_v2 fs pubFile privFile env).ret = 0
      ∧ (WriteKeysToPEMFiles_v2 fs pubFile privFile env).fs privFile = FileState.truncatedEmpty)
  ∧ (env.bioNewOk = true → env.privOpenOk = true → env.privWriteOk = true →
     env.pubOpenOk = true → env.pubWriteOk = false →
        (WriteKeysToPEMFiles_v1 fs pubFile privFile env).ret = 0
      ∧ (WriteKeysToPEMFiles_v1 fs pubFile privFile env).fs pubFile = FileState.truncatedEmpty
      ∧ (WriteKeysToPEMFiles_v1 fs pubFile privFile env).fs privFile = FileState.completeKey
      ∧ (WriteKeysToPEMFiles_v2 fs pubFile privFile env).ret = 0
      ∧ (WriteKeysToPEMFiles_v2 fs pubFile privFile env).fs pubFile = FileState.truncatedEmpty
      ∧ (WriteKeysToPEMFiles_v2 fs pubFile privFile env).fs privFile = FileState.completeKey) := by
  obtain ⟨b, po, pw, qo, qw⟩ := env
  have hne' : privFile ≠ pubFile := Ne.symm hne
  constructor
  · intro hb hpo hpw
    subst hb; subst hpo; subst hpw
    simp [WriteKeysToPEMFiles_v1, WriteKeysToPEMFiles_v2, setFile]
  · intro hb hpo hpw hqo hqw
    subst hb; subst hpo; subst hpw; subst hqo; subst hqw
    simp [WriteKeysToPEMFiles_v1, WriteKeysToPEMFiles_v2, setFile, hne']

/-- C2 amended, witness: the public-key write fails on a concrete file
system; the public-key file is left truncated and the private-key file
complete. -/
theorem C2_amended_witness :
    (WriteKeysToPEMFiles_v1 (fun _ => FileState.absent) "pub.pem" "priv.pem"
        ⟨true, true, true, true, false⟩).ret = 0
  ∧ (WriteKeysToPEMFiles_v1 (fun _ => FileState.absent) "pub.pem" "priv.pem"
        ⟨true, true, true, true, false⟩).fs "pub.pem" = FileState.truncatedEmpty
  ∧ (WriteKeysToPEMFiles_v1 (fun _ => FileState.absent) "pub.pem" "priv.pem"
        ⟨true, true, true, true, false⟩).fs "priv.pem" = FileState.completeKey
  ∧ (WriteKeysToPEMFiles_v2 (fun _ => FileState.absent) "pub.pem" "priv.pem"
        ⟨true, true, true, true, false⟩).ret = 0
  ∧ (WriteKeysToPEMFiles_v2 (fun _ => FileState.absent) "pub.pem" "priv.pem"
        ⟨true, true, true, true, false⟩).fs "pub.pem" = FileState.truncatedEmpty
  ∧ (WriteKeysToPEMFiles_v2 (fun _ => FileState.absent) "pub.pem" "priv.pem"
        ⟨true, true, true, true, false⟩).fs "priv.pem" = FileState.completeKey :=
  (C2_amended_no_cleanup_on_write_failure (fun _ => FileState.absent) "pub.pem" "priv.pem"
    ⟨true, true, true, true, false⟩ (by decide)).2 rfl rfl rfl rfl rfl

/-- C5: whenever the arguments of CreateECCKeysPemFiles,
ReadPrivateKeyPemFile or ReadPublicKeyPemFile fail input validation (a
path rejected by VerifyPemFileFormat, a NULL output buffer, or a zero
buffer size), the function returns 0 with an empty operation trace: no
file is opened and no cryptographic operation is attempted. This holds
for every revision embedded here. -/
theorem C5_validation_precedes_file_and_crypto_ops
    (path : Option String) (buf : Option (List Nat)) (n : Nat)
    (e1 : R1Env) (e2 : R2Env) (e3 : R2Env) (ep : PubEnv)
    (ecType pubFile privFile : Option String) (g1 : GEnv1) (g2 : GEnv2) (fs : FS) :
    ((VerifyPemFileFormat path = 0 ∨ buf = none ∨ n = 0) →
        (ReadPrivateKeyPemFile_v1 path buf n e1).ret = 0
      ∧ (ReadPrivateKeyPemFile_v1 path buf n e1).events = []
      ∧ (ReadPrivateKeyPemFile_v2 path buf n e2).ret = 0
      ∧ (ReadPrivateKeyPemFile_v2 path buf n e2).events = []
      ∧ (ReadPrivateKeyPemFile_v3 path buf n e3).ret = 0
      ∧ (ReadPrivateKeyPemFile_v3 path buf n e3).events = []
      ∧ (ReadPublicKeyPemFile path buf n ep).ret = 0
      ∧ (ReadPublicKeyPemFile path buf n ep).events = [])
  ∧ ((VerifyPemFileFormat pubFile = 0 ∨ VerifyPemFileFormat privFile = 0) →
        (CreateECCKeysPemFiles_v1 ecType pubFile privFile g1 fs).ret = 0
      ∧ (CreateECCKeysPemFiles_v1 ecType pubFile privFile g1 fs).events = []
      ∧ (CreateECCKeysPemFiles_v2 ecType pubFile privFile g2 fs).ret = 0
      ∧ (CreateECCKeysPemFiles_v2 ecType pubFile privFile g2 fs).events = []) := by
  constructor
  · intro h
    rcases h with h | h | h
    · simp [ReadPrivateKeyPemFile_v1, ReadPrivateKeyPemFile_v2, ReadPrivateKeyPemFile_v3,
        ReadPublicKeyPemFile, h]
    · subst h
      by_cases hv : VerifyPemFileFormat path = 0 <;>
        simp [ReadPrivateKeyPemFile_v1, ReadPrivateKeyPemFile_v2, ReadPrivateKeyPemFile_v3,
          ReadPublicKeyPemFile, hv]
    · subst h
      by_cases hv : VerifyPemFileFormat path = 0
      · simp [ReadPrivateKeyPemFile_v1, ReadPrivateKeyPemFile_v2, ReadPrivateKeyPemFile_v3,
          ReadPublicKeyPemFile, hv]
      · cases buf with
        | none =>
          simp [ReadPrivateKeyPemFile_v1, ReadPrivateKeyPemFile_v2, ReadPrivateKeyPemFile_v3,
            ReadPublicKeyPemFile, hv]
        | some b0 =>
          simp [ReadPrivateKeyPemFile_v1, ReadPrivateKeyPemFile_v2, ReadPrivateKeyPemFile_v3,
            ReadPublicKeyPemFile, hv]
  · intro h
    cases ecType with
    | none => simp [CreateECCKeysPemFiles_v1, CreateECCKeysPemFiles_v2]
    | some e =>
      rcases h with h | h
      · simp [CreateECCKeysPemFiles_v1, CreateECCKeysPemFiles_v2, h]
      · by_cases hv : VerifyPemFileFormat pubFile = 0 <;>
          simp [CreateECCKeysPemFiles_v1, CreateECCKeysPemFiles_v2, hv, h]

/-- C5 witness: a read from a file named key.txt fails without the file
ever being opened. -/
theorem C5_witness_key_txt :
    (ReadPrivateKeyPemFile_v2 (some "key.txt") (some (List.replicate 32 0)) 32
        ⟨true, true, true, some 5⟩).ret = 0
  ∧ (ReadPrivateKeyPemFile_v2 (some "key.txt") (some (List.replicate 32 0)) 32
        ⟨true, true, true, some 5⟩).events = [] :=
  ⟨((C5_validation_precedes_file_and_crypto_ops (some "key.txt")
      (some (List.replicate 32 0)) 32 ⟨true, true, true, true, 5⟩
      ⟨true, true, true, some 5⟩ ⟨true, true, true, some 5⟩ ⟨true, true, true, none⟩
      none none none ⟨true, true, true, true, ⟨true, true, true, true, true⟩⟩
      ⟨true, true, true, true, true, ⟨true, true, true, true, true⟩⟩
      (fun _ => FileState.absent)).1 (Or.inl (by decide))).2.2.1,
   ((C5_validation_precedes_file_and_crypto_ops (some "key.txt")
      (some (List.replicate 32 0)) 32 ⟨true, true, true, true, 5⟩
      ⟨true, true, true, some 5⟩ ⟨true, true, true, some 5⟩ ⟨true, true, true, none⟩
      none none none ⟨true, true, true, true, ⟨true, true, true, true, true⟩⟩
      ⟨true, true, true, true, true, ⟨true, true, true, true, true⟩⟩
      (fun _ => FileState.absent)).1 (Or.inl (by decide))).2.2.2.1⟩

/-- C6: ReadPublicKeyPemFile returns 1 only when the converted compressed
key occupies exactly compressed_key_size bytes, and whenever the converted
length differs from compressed_key_size it returns 0. -/
theorem C6_public_read_exact_width (path : Option String) (buf : Option (List Nat))
    (size : Nat) (env : PubEnv) (ks : List Nat) (hks : env.converted = some ks) :
    ((ReadPublicKeyPemFile path buf size env).ret = 1 → ks.length = size)
  ∧ (ks.length ≠ size → (ReadPublicKeyPemFile path buf size env).ret = 0) := by
  unfold ReadPublicKeyPemFile
  rw [hks]
  by_cases h1 : VerifyPemFileFormat path = 0
  · simp [h1]
  cases buf with
  | none => simp [h1]
  | some b0 =>
    by_cases h2 : size = 0
    · simp [h1, h2]
    by_cases h3 : env.fopenOk = false
    · simp [h1, h2, h3]
    by_cases h4 : env.parseOk = false
    · simp [h1, h2, h3, h4]
    by_cases h5 : env.ecOk = false
    · simp [h1, h2, h3, h4, h5]
    by_cases h6 : ks.length ≠ size
    · simp [h1, h2, h3, h4, h5, h6]
    · simp [h1, h2, h3, h4, h5, h6]
      omega

/-- C6 witness: a converted key of 34 bytes against compressed_key_size 33
makes the function return 0. -/
theorem C6_witness_length_mismatch :
    (ReadPublicKeyPemFile (some "pub.pem") (some (List.replicate 33 0)) 33
        ⟨true, true, true, some (List.replicate 34 7)⟩).ret = 0 :=
  (C6_public_read_exact_width (some "pub.pem") (some (List.replicate 33 0)) 33
    ⟨true, true, true, some (List.replicate 34 7)⟩ (List.replicate 34 7) rfl).2 (by decide)

/-- C7: when the curve name does not resolve to a known curve, both
revisions of CreateECCKeysPemFiles return 0 before either output path is
opened: the file system is unchanged and the operation trace contains no
file-open event. -/
theorem C7_unknown_curve_no_files (ecType pubFile privFile : Option String)
    (g1 : GEnv1) (g2 : GEnv2) (fs : FS)
    (h1 : g1.curveKnown = false) (h2 : g2.curveKnown = false) :
    (CreateECCKeysPemFiles_v1 ecType pubFile privFile g1 fs).ret = 0
  ∧ (CreateECCKeysPemFiles_v1 ecType pubFile privFile g1 fs).fs = fs
  ∧ (∀ p, Event.openWrite p ∉ (CreateECCKeysPemFiles_v1 ecType pubFile privFile g1 fs).events)
  ∧ (CreateECCKeysPemFiles_v2 ecType pubFile privFile g2 fs).ret = 0
  ∧ (CreateECCKeysPemFiles_v2 ecType pubFile privFile g2 fs).fs = fs
  ∧ (∀ p, Event.openWrite p ∉ (CreateECCKeysPemFiles_v2 ecType pubFile privFile g2 fs).events) := by
  cases ecType with
  | none => simp [CreateECCKeysPemFiles_v1, CreateECCKeysPemFiles_v2]
  | some e =>
    by_cases hpub : VerifyPemFileFormat pubFile = 0
    · simp [CreateECCKeysPemFiles_v1, CreateECCKeysPemFiles_v2, hpub]
    by_cases hpriv : VerifyPemFileFormat privFile = 0
    · simp [CreateECCKeysPemFiles_v1, CreateECCKeysPemFiles_v2, hpub, hpriv]
    by_cases hctx : g1.ctxNewOk = false
    · by_cases hinit : g1.keygenInitOk = false <;>
        simp [CreateECCKeysPemFiles_v1, CreateECCKeysPemFiles_v2, hpub, hpriv, hctx, h1, h2]
    by_cases hinit : g1.keygenInitOk = false <;>
      simp [CreateECCKeysPemFiles_v1, CreateECCKeysPemFiles_v2, hpub, hpriv, hctx, hinit, h1, h2]

/-- C7 witness: generation with the curve name not_a_curve fails and
leaves the file system exactly as it was, with no file opened. -/
theorem C7_witness_not_a_curve :
    (CreateECCKeysPemFiles_v2 (some "not_a_curve") (some "pub.pem") (some "priv.pem")
        ⟨false, true, true, true, true, ⟨true, true, true, true, true⟩⟩
        (fun _ => FileState.absent)).ret = 0
  ∧ (CreateECCKeysPemFiles_v2 (some "not_a_curve") (some "pub.pem") (some "priv.pem")
        ⟨false, true, true, true, true, ⟨true, true, true, true, true⟩⟩
        (fun _ => FileState.absent)).fs = (fun _ => FileState.absent) :=
  ⟨(C7_unknown_curve_no_files (some "not_a_curve") (some "pub.pem") (some "priv.pem")
      ⟨true, true, false, true, ⟨true, true, true, true, true⟩⟩
      ⟨false, true, true, true, true, ⟨true, true, true, true, true⟩⟩
      (fun _ => FileState.absent) rfl rfl).2.2.2.1,
   (C7_unknown_curve_no_files (some "not_a_curve") (some "pub.pem") (some "priv.pem")
      ⟨true, true, false, true, ⟨true, true, true, true, true⟩⟩
      ⟨false, true, true, true, true, ⟨true, true, true, true, true⟩⟩
      (fun _ => FileState.absent) rfl rfl).2.2.2.2.1⟩

theorem overwriteFront_full (ks : List Nat) (m : Nat) (h : ks.length = m) :
    overwriteFront ks (List.replicate m 0) = ks := by
  simp [overwriteFront, drop_replicate, h]

/-- The private-key read of the successful end-to-end run for a 32-byte
curve: scalar d parsed from priv.pem into a 32-byte caller buffer. -/
def endToEndPrivRead (d : Nat) : RResult :=
  ReadPrivateKeyPemFile_v2 (some "priv.pem") (some (List.replicate 32 0)) 32
    ⟨true, true, true, some d⟩

/-- The public-key read of the successful end-to-end run: the point (x, y)
is delivered by OpenSSL in SEC1 compressed form (spec-modelled
EncodePoint) into a 33-byte caller buffer. -/
def endToEndPubRead (x y : Nat) : RResult :=
  ReadPublicKeyPemFile (some "pub.pem") (some (List.replicate 33 0)) 33
    ⟨true, true, true, some (EncodePoint 32 x y)⟩

/-- C8: after a successful end-to-end run on a 32-byte curve (valid scalar
d with 1 ≤ d < 256 ^ 32 and a point whose x fits 32 bytes), the private
read returns 1 with a buffer of length 32 that is not all zero, and the
public read returns 1 with a buffer of length 33 whose first byte is 2 or
3 (the SEC1 compressed prefix). -/
theorem C8_end_to_end_buffer_shapes (d x y : Nat)
    (hd : 1 ≤ d) (hdlt : d < 256 ^ 32) (hx : x < 256 ^ 32) :
    (endToEndPrivRead d).ret = 1
  ∧ (∃ bs, (endToEndPrivRead d).buf = some bs ∧ bs.length = 32
        ∧ bs ≠ List.replicate 32 0)
  ∧ (endToEndPubRead x y).ret = 1
  ∧ (∃ cs, (endToEndPubRead x y).buf = some cs ∧ cs.length = 33
        ∧ (cs.head? = some 2 ∨ cs.head? = some 3)) := by
  have hfit : BN_num_bytes d ≤ 32 := BN_num_bytes_le d 32 hdlt
  have hpr := readPriv_v2_success (some "priv.pem") 32 d (by decide) (by decide) hfit
  have hlen33 : (EncodePoint 32 x y).length = 33 := EncodePoint_length 32 x y hx
  have hpb := readPub_success (some "pub.pem") (List.replicate 33 0)
    (EncodePoint 32 x y) 33 (by decide) (by decide) hlen33
  refine ⟨?_, ⟨natToBEBytes d ++ List.replicate (32 - BN_num_bytes d) 0, ?_, ?_, ?_⟩,
    ?_, ⟨EncodePoint 32 x y, ?_, hlen33, ?_⟩⟩
  · rw [endToEndPrivRead, hpr]
  · rw [endToEndPrivRead, hpr]
  · simp only [List.length_append, List.length_replicate]
    simp only [BN_num_bytes] at hfit ⊢
    omega
  · exact right_padded_ne_zero_buffer d 32 (by omega)
  · rw [endToEndPubRead, hpb]
  · rw [endToEndPubRead, hpb, overwriteFront_full _ 33 hlen33]
  · by_cases hy : y % 2 = 0
    · left; simp [EncodePoint, hy]
    · right; simp [EncodePoint, hy]

/-- C8 witness: the run at scalar 7 and point (1, 2). -/
theorem C8_witness_concrete_run :
    1 ≤ 7
  ∧ ((endToEndPrivRead 7).ret = 1
  ∧ (∃ bs, (endToEndPrivRead 7).buf = some bs ∧ bs.length = 32
        ∧ bs ≠ List.replicate 32 0)
  ∧ (endToEndPubRead 1 2).ret = 1
  ∧ (∃ cs, (endToEndPubRead 1 2).buf = some cs ∧ cs.length = 33
        ∧ (cs.head? = some 2 ∨ cs.head? = some 3))) :=
  ⟨by decide, C8_end_to_end_buffer_shapes 7 1 2 (by decide) (by decide) (by decide)⟩

/-- C9: VerifyPemFileFormat decides acceptance purely from the path
string: it returns 1 exactly when the path is non-NULL and ends with
".pem" (equivalently, the suffix starting at its last dot is ".pem"), so
multi-extension names such as a.txt.pem pass, and it returns 0 for NULL,
for the empty string, for dot-free paths and for any other suffix. The
embedding, like the C function, consults only strrchr and strcmp on the
path and never the file system. -/
theorem C9_verify_pem_format_pure_suffix_check :
    (∀ p : Option String, VerifyPemFileFormat p = 1 ↔
        ∃ s, p = some s ∧ (".pem" : String).data <:+ s.data)
  ∧ VerifyPemFileFormat (some "a.txt.pem") = 1
  ∧ VerifyPemFileFormat none = 0
  ∧ VerifyPemFileFormat (some "") = 0
  ∧ VerifyPemFileFormat (some "nodotpath") = 0
  ∧ VerifyPemFileFormat (some "key.txt") = 0
  ∧ VerifyPemFileFormat (some "a.pem.bak") = 0 := by
  refine ⟨?_, by decide, by decide, by decide, by decide, by decide, by decide⟩
  intro p
  cases p with
  | none => simp [VerifyPemFileFormat]
  | some s =>
    simp only [VerifyPemFileFormat]
    constructor
    · intro h
      refine ⟨s, rfl, ?_⟩
      apply (lastDotSuffix_pem s.data).mp
      cases hls : lastDotSuffix s.data with
      | none => rw [hls] at h; simp at h
      | some r =>
        rw [hls] at h
        simp at h
        rw [h]
    · rintro ⟨t, ht, hsuf⟩
      have hts : t = s := by injection ht with h0; exact h0.symm
      subst hts
      have hld := (lastDotSuffix_pem t.data).mpr hsuf
      rw [hld]
      decide

/-- C9 witness: a name with no corresponding file on disk is accepted on
the strength of its suffix alone. -/
theorem C9_witness_suffix_only :
    VerifyPemFileFormat (some "no_such_file.pem") = 1 :=
  (C9_verify_pem_format_pure_suffix_check.1 (some "no_such_file.pem")).mpr
    ⟨"no_such_file.pem", rfl, by decide⟩
end Eccpem
